import Mathlib

/-!
# Verification of the OS project usage exporter

Shallow embedding of the usage-accounting engine of the
`OS_project_usage_exporter` repository:

* `get_instance_weight` (the time-sharded, value-tiered weight resolver of
  `project_usage_exporter.py`), with its two ascending scan loops;
* `compute_server_info` (the existence-window model of `dummy_cloud.py`);
* `collect_usages` (the per-project usage accountant of
  `project_usage_exporter.py`), including the grouping (simple-VM) branch.

Instants are modelled as rational numbers of epoch seconds; Python float
arithmetic is modelled exactly over `ℚ`.  Python exceptions are modelled by
`Except String`: an uncaught exception is an `.error` result.  Python dicts
are modelled as association lists in insertion order (`List.lookup` finds
the first matching key, which coincides with dict behaviour when keys are
distinct).
-/

/-- One metric tier table of the weight resolver: Python
`Dict[str, Dict[float, float]]`, mapping a metric name to its
threshold-to-multiplier table. -/
abbrev TierSet := List (String × List (ℚ × ℚ))

/-- The whole weight table `self.weights`: Python
`Dict[float, TierSet]` mapping activation timestamps (epoch seconds) to
tier tables. -/
abbrev Weights := List (ℚ × TierSet)

/-- Python `sorted` over a list of numbers (ascending). -/
def sortQ (l : List ℚ) : List ℚ :=
  List.insertionSort (· ≤ ·) l

/-- The scan loop shared by both halves of `get_instance_weight`
(`project_usage_exporter.py` lines 248-251 and 256-258): iterate over the
ascending list and return the first element `t` with `a <= t or t == mx`,
`none` when the loop falls through. -/
def loop_select (xs : List ℚ) (mx a : ℚ) : Option ℚ :=
  xs.find? fun t => decide (a ≤ t) || decide (t = mx)

/-- The threshold-table half of `get_instance_weight`
(`project_usage_exporter.py` lines 254-262): sort the threshold keys,
take their max (Python `max` raises `ValueError` on an empty sequence),
scan ascending and return the multiplier of the first key `k` with
`metric_amount <= k or k == max_key`; after a fall-through the code logs a
warning and returns 1. -/
def weight_from_tiers (metric_weights : List (ℚ × ℚ)) (metric_amount : ℚ) :
    Except String ℚ :=
  match (sortQ (metric_weights.map Prod.fst)).max? with
  | none => .error "ValueError: max arg is an empty sequence"
  | some max_key =>
    match loop_select (sortQ (metric_weights.map Prod.fst)) max_key
        metric_amount with
    | some key =>
      match metric_weights.lookup key with
      | none => .error "KeyError: threshold key"
      | some v => .ok v
    | none => .ok 1

/-- `OpenstackExporter.get_instance_weight`
(`project_usage_exporter.py` lines 242-268).  The `started_date` string has
already been parsed into the epoch-second instant
`instance_started_timestamp`.  When `self.weights is None` the function
logs and returns 1; otherwise it sorts the activation timestamps, takes
their max (`ValueError` on an empty table), selects the first timestamp
`t` with `instance_started_timestamp <= t or t == max_timestamp`, fetches
the tier table of that activation, looks up the metric tag (`KeyError` when
missing) and descends into the threshold scan. -/
def get_instance_weight (weights : Option Weights) (metric_tag : String)
    (metric_amount instance_started_timestamp : ℚ) : Except String ℚ :=
  match weights with
  | none => .ok 1
  | some w =>
    match (sortQ (w.map Prod.fst)).max? with
    | none => .error "ValueError: max arg is an empty sequence"
    | some max_timestamp =>
      match loop_select (sortQ (w.map Prod.fst)) max_timestamp
          instance_started_timestamp with
      | none => .ok 1
      | some timestamp =>
        match w.lookup timestamp with
        | none => .error "KeyError: timestamp"
        | some associated_weights =>
          match associated_weights.lookup metric_tag with
          | none => .error "KeyError: metric tag"
          | some metric_weights =>
            weight_from_tiers metric_weights metric_amount


/-- The `existence` configuration of a dummy machine
(`dummy_cloud.py`, `ExistenceInformation` plus the datetime payloads of
`self.existence`): never booted, booted at script start, booted at a fixed
instant, or up between two instants.  Instants are epoch seconds. -/
inductive Existence where
  | NO_EXISTENCE
  | SINCE_SCRIPT_START
  | SINCE_DATETIME (boot : ℚ)
  | BETWEEN_DATETIMES (boot shutdown : ℚ)
  deriving DecidableEq

/-- `Compute.DummyMachine` (`dummy_cloud.py` lines 65-92): cpu count, RAM
in GiB, existence window, metadata dict and instance id. -/
structure DummyMachine where
  cpus : ℤ
  ram : ℤ
  existence : Existence
  metadata : List (String × String)
  instance_id : String
  deriving DecidableEq

/-- `DummyMachine.ram_mb` (`dummy_cloud.py` lines 117-119). -/
def DummyMachine.ram_mb (m : DummyMachine) : ℤ :=
  m.ram * 1024

/-- The `Munch` record returned by `compute_server_info`
(`dummy_cloud.py` lines 124-129): fractional hours, vcpus, memory in MiB,
boot instant and instance id. -/
structure ServerInfo where
  hours : ℚ
  vcpus : ℤ
  memory_mb : ℤ
  started_at : ℚ
  instance_id : String
  deriving DecidableEq

/-- `Compute.DummyMachine.compute_server_info`
(`dummy_cloud.py` lines 121-172).  `requested_start_date` arrives already
parsed to an instant; the two `datetime.now()` reads of the Python body are
both modelled by the explicit `now` parameter.  Durations are reported in
fractional hours (`timedelta / hour_timedelta`), i.e. seconds divided
by 3600. -/
def compute_server_info (m : DummyMachine)
    (requested_start_date script_start now : ℚ) : ServerInfo :=
  match m.existence with
  | .NO_EXISTENCE =>
      ⟨0, m.cpus, m.ram_mb, script_start, m.instance_id⟩
  | .SINCE_SCRIPT_START =>
      ⟨if script_start < requested_start_date then
          (now - requested_start_date) / 3600
        else (now - script_start) / 3600,
       m.cpus, m.ram_mb, script_start, m.instance_id⟩
  | .SINCE_DATETIME boot =>
      let hours_existence :=
        if boot < requested_start_date then (now - requested_start_date) / 3600
        else (now - boot) / 3600
      ⟨if 0 < hours_existence then hours_existence else 0,
       m.cpus, m.ram_mb, boot, m.instance_id⟩
  | .BETWEEN_DATETIMES boot shutdown =>
      ⟨if now < boot then 0
        else if shutdown < now then
          (if boot < requested_start_date then
            (shutdown - requested_start_date) / 3600
          else (shutdown - boot) / 3600)
        else
          (if boot < requested_start_date then
            (now - requested_start_date) / 3600
          else (now - boot) / 3600),
       m.cpus, m.ram_mb, boot, m.instance_id⟩


/-- `OpenstackProject` (`project_usage_exporter.py` lines 99-105), the
frozen dataclass used as dict key in `collect_usages`. -/
structure OpenstackProject where
  id : String
  name : String
  domain_name : String
  domain_id : String
  is_simple_vm_project : Bool
  deriving DecidableEq

/-- One entry of `tenant_usage["server_usages"]`: a JSON object.  The
numeric fields (`hours`, `vcpus`, `memory_mb`, ...) form a partial
string-keyed map (a key may be missing from a malformed payload); the
`started_at` string is modelled by its parsed instant and the
`instance_id` is a string. -/
structure InstanceRecord where
  fields : List (String × ℚ)
  started_at : ℚ
  instance_id : String
  deriving DecidableEq

/-- One entry of the `/servers/detail` payload: instance id plus the
free-form metadata dict. -/
structure ServerDetail where
  id : String
  metadata : List (String × String)
  deriving DecidableEq

/-- Outcome of the guarded tenant-usage fetch of `collect_usages`
(`project_usage_exporter.py` lines 177-196): an exception during the
request (`except BaseException`), a missing `tenant_usage` key
(`except KeyError`), a falsy `tenant_usage` (skipped with a log) or the
list of server-usage records. -/
inductive TenantUsageResponse where
  | fetchError
  | noTenantUsageKey
  | emptyUsage
  | usage (server_usages : List InstanceRecord)

/-- The backend as seen by `collect_usages`: the per-project
tenant-usage response and the per-project `/servers/detail` inventory. -/
structure CloudEnv where
  tenant_usage : OpenstackProject → TenantUsageResponse
  server_details : OpenstackProject → List ServerDetail

/-- The exporter state consulted by `collect_usages`: the project set
(modelled in iteration order), the weight table and the simple-VM
metadata tag. -/
structure ExporterState where
  projects : List OpenstackProject
  weights : Option Weights
  simple_vm_tag : Option String

/-- Python `str.split` for the fixed separator `"_"`: cut the character
list at each underscore. -/
def splitUnderscoreAux : List Char → List Char → List String
  | [], cur => [String.mk cur.reverse]
  | c :: rest, cur =>
    if c = '_' then String.mk cur.reverse :: splitUnderscoreAux rest []
    else splitUnderscoreAux rest (c :: cur)

/-- Python `"_".join`. -/
def joinUnderscore : List String → String
  | [] => ""
  | [s] => s
  | s :: rest => s ++ "_" ++ joinUnderscore rest

/-- The metric-name surgery of `collect_usages`
(`project_usage_exporter.py` lines 218 and 231):
`"_".join(metric.split("_")[1:len(metric.split("_")) - 1])`, mapping
`total_vcpus_usage` to `vcpus` and `total_memory_mb_usage` to
`memory_mb`. -/
def instance_metric_of (metric : String) : String :=
  joinUnderscore ((splitUnderscoreAux metric.data []).drop 1).dropLast


/-- The keys of the `project_metrics` gauge dict
(`project_usage_exporter.py` lines 50-59), in insertion order. -/
def project_metrics : List String :=
  ["total_vcpus_usage", "total_memory_mb_usage"]

/-- The innermost accumulation loop of the non-grouping branch
(`project_usage_exporter.py` lines 232-237): fold over the server-usage
records with a running total; `instance[HOURS_KEY]` and
`instance[instance_metric]` raise `KeyError` when absent (uncaught), and
a raising `get_instance_weight` call also propagates. -/
def accumulate (w : Option Weights) (im : String)
    (records : List InstanceRecord) (total_usage : ℚ) : Except String ℚ :=
  match records with
  | [] => .ok total_usage
  | inst :: rest =>
    match inst.fields.lookup "hours" with
    | none => .error "KeyError: hours"
    | some instance_hours =>
      if 0 < instance_hours then
        match inst.fields.lookup im with
        | none => .error "KeyError: instance metric"
        | some metric_amount =>
          match get_instance_weight w im metric_amount inst.started_at with
          | .error e => .error e
          | .ok wt =>
            accumulate w im rest
              (total_usage + instance_hours * metric_amount * wt)
      else accumulate w im rest total_usage

/-- The per-metric loop of the non-grouping branch
(`project_usage_exporter.py` lines 230-238), producing the metric dict of the project in insertion order. -/
def metric_totals (w : Option Weights) (records : List InstanceRecord) :
    List String → Except String (List (String × ℚ))
  | [] => .ok []
  | metric :: rest =>
    match accumulate w (instance_metric_of metric) records 0 with
    | .error e => .error e
    | .ok t =>
      match metric_totals w records rest with
      | .error e => .error e
      | .ok ts => .ok ((metric, t) :: ts)

/-- Construction of `instance_id_to_project_dict`
(`project_usage_exporter.py` lines 204-206): for each inventory entry map
its id to `instance["metadata"][simple_vm_tag]`; a missing tag raises
`KeyError` (uncaught). -/
def build_tag_dict (servers : List ServerDetail) (tag : String)
    (acc : List (String × String)) : Except String (List (String × String)) :=
  match servers with
  | [] => .ok acc
  | s :: rest =>
    match s.metadata.lookup tag with
    | none => .error "KeyError: simple vm tag"
    | some v => build_tag_dict rest tag (acc ++ [(s.id, v)])

/-- The innermost accumulation loop of the grouping branch
(`project_usage_exporter.py` lines 220-226): like `accumulate` but only
records whose `instance_id_to_project_dict` entry equals the current
synthetic name contribute; the dict lookup itself raises `KeyError` for
an id absent from the inventory. -/
def accumulate_tagged (w : Option Weights) (im : String)
    (tag_dict : List (String × String)) (svm_name : String)
    (records : List InstanceRecord) (total_usage : ℚ) : Except String ℚ :=
  match records with
  | [] => .ok total_usage
  | inst :: rest =>
    match tag_dict.lookup inst.instance_id with
    | none => .error "KeyError: instance id"
    | some t =>
      if t = svm_name then
        match inst.fields.lookup "hours" with
        | none => .error "KeyError: hours"
        | some instance_hours =>
          if 0 < instance_hours then
            match inst.fields.lookup im with
            | none => .error "KeyError: instance metric"
            | some metric_amount =>
              match get_instance_weight w im metric_amount
                  inst.started_at with
              | .error e => .error e
              | .ok wt =>
                accumulate_tagged w im tag_dict svm_name rest
                  (total_usage + instance_hours * metric_amount * wt)
          else accumulate_tagged w im tag_dict svm_name rest total_usage
      else accumulate_tagged w im tag_dict svm_name rest total_usage

/-- The per-metric loop of the grouping branch
(`project_usage_exporter.py` lines 217-227) for one synthetic name. -/
def svm_totals (w : Option Weights) (tag_dict : List (String × String))
    (svm_name : String) (records : List InstanceRecord) :
    List String → Except String (List (String × ℚ))
  | [] => .ok []
  | metric :: rest =>
    match accumulate_tagged w (instance_metric_of metric) tag_dict svm_name
        records 0 with
    | .error e => .error e
    | .ok t =>
      match svm_totals w tag_dict svm_name records rest with
      | .error e => .error e
      | .ok ts => .ok ((metric, t) :: ts)

/-- The synthetic per-tag project of the grouping branch
(`project_usage_exporter.py` lines 209-215): same id and domain as the
parent, name replaced by the tag value. -/
def svm_project (p : OpenstackProject) (svm_name : String) :
    OpenstackProject :=
  { id := p.id, name := svm_name, domain_name := p.domain_name,
    domain_id := p.domain_id, is_simple_vm_project := true }

/-- The loop over `simple_vm_project_names`
(`project_usage_exporter.py` lines 208-227), appending one
`(synthetic project, metric dict)` entry per distinct tag value. -/
def svm_loop (w : Option Weights) (tag_dict : List (String × String))
    (records : List InstanceRecord) (p : OpenstackProject)
    (names : List String)
    (acc : List (OpenstackProject × List (String × ℚ))) :
    Except String (List (OpenstackProject × List (String × ℚ))) :=
  match names with
  | [] => .ok acc
  | n :: rest =>
    match svm_totals w tag_dict n records project_metrics with
    | .error e => .error e
    | .ok ts => svm_loop w tag_dict records p rest (acc ++ [(svm_project p n, ts)])

/-- The body of the `for project in self.projects` loop of
`collect_usages` (`project_usage_exporter.py` lines 176-238) for one
project: the guarded fetch outcomes all `continue`; a grouping project
without a configured tag only logs; otherwise the grouping or plain
accumulation runs, with uncaught per-instance `KeyError`s escaping. -/
def collect_step (st : ExporterState) (env : CloudEnv)
    (acc : List (OpenstackProject × List (String × ℚ)))
    (project : OpenstackProject) :
    Except String (List (OpenstackProject × List (String × ℚ))) :=
  match env.tenant_usage project with
  | .fetchError => .ok acc
  | .noTenantUsageKey => .ok acc
  | .emptyUsage => .ok acc
  | .usage server_usages =>
    if project.is_simple_vm_project then
      match st.simple_vm_tag with
      | none => .ok acc
      | some tag =>
        match build_tag_dict (env.server_details project) tag [] with
        | .error e => .error e
        | .ok tag_dict =>
          svm_loop st.weights tag_dict server_usages project
            ((tag_dict.map Prod.snd).dedup) acc
    else
      match metric_totals st.weights server_usages project_metrics with
      | .error e => .error e
      | .ok ts => .ok (acc ++ [(project, ts)])

/-- The `for project in self.projects` loop itself, threading the
`project_usages` accumulator. -/
def collect_usages_go (st : ExporterState) (env : CloudEnv) :
    List OpenstackProject →
    List (OpenstackProject × List (String × ℚ)) →
    Except String (List (OpenstackProject × List (String × ℚ)))
  | [], acc => .ok acc
  | p :: rest, acc =>
    match collect_step st env acc p with
    | .error e => .error e
    | .ok acc' => collect_usages_go st env rest acc'

/-- `OpenstackExporter.collect_usages`
(`project_usage_exporter.py` lines 168-240): the `project_usages` dict in
insertion order, or the first uncaught exception. -/
def collect_usages (st : ExporterState) (env : CloudEnv) :
    Except String (List (OpenstackProject × List (String × ℚ))) :=
  collect_usages_go st env st.projects []


/-! ## Helper lemmas about Python max and the ascending scan -/

lemma max?_mem_q {l : List ℚ} {m : ℚ} (h : l.max? = some m) : m ∈ l :=
  List.max?_mem (fun a b => max_choice a b) h

lemma le_max?_q {l : List ℚ} {m : ℚ} (h : l.max? = some m) :
    ∀ x ∈ l, x ≤ m :=
  fun _ hx => (List.max?_le_iff (fun _ _ _ => max_le_iff) h).mp le_rfl _ hx

lemma sortQ_sorted (l : List ℚ) : List.Sorted (· ≤ ·) (sortQ l) :=
  List.sorted_insertionSort _ l

lemma sortQ_perm (l : List ℚ) : List.Perm (sortQ l) l :=
  List.perm_insertionSort _ l

/-- The ascending scan with guard `a <= t or t == mx` over a sorted list
whose maximum is `mx` finds the first element `>= a`, and `mx` itself when
no element qualifies. -/
lemma loop_select_eq {l : List ℚ} {m : ℚ} (a : ℚ)
    (hs : List.Sorted (· ≤ ·) l) (hmem : m ∈ l) (hmax : ∀ x ∈ l, x ≤ m) :
    loop_select l m a =
      some (((l.filter fun t => decide (a ≤ t)).head?).getD m) := by
  induction l with
  | nil => cases hmem
  | cons t ts ih =>
    rw [List.sorted_cons] at hs
    by_cases hat : a ≤ t
    · simp [loop_select, List.find?_cons, List.filter_cons, hat]
    · by_cases htm : t = m
      · subst htm
        have hts : ∀ x ∈ ts, ¬ a ≤ x := by
          intro x hx hax
          exact hat (le_trans hax (hmax x (List.mem_cons_of_mem _ hx)))
        have hfil : ts.filter (fun x => decide (a ≤ x)) = [] := by
          rw [List.filter_eq_nil_iff]
          intro x hx
          simpa using hts x hx
        simp [loop_select, List.find?_cons, List.filter_cons, hat, hfil]
      · have hmem' : m ∈ ts := by
          rcases List.mem_cons.mp hmem with h | h
          · exact absurd h.symm htm
          · exact h
        have := ih hs.2 hmem' fun x hx => hmax x (List.mem_cons_of_mem _ hx)
        simpa [loop_select, List.find?_cons, List.filter_cons, hat, htm]
          using this

lemma lookup_isSome_of_mem_keys {α β : Type} [BEq α] [LawfulBEq α]
    {l : List (α × β)} {a : α} (h : a ∈ l.map Prod.fst) :
    (l.lookup a).isSome := by
  induction l with
  | nil => simp at h
  | cons p rest ih =>
    obtain ⟨k, b⟩ := p
    by_cases hk : a = k
    · subst hk
      simp [List.lookup]
    · rw [List.map_cons, List.mem_cons] at h
      rcases h with h | h
      · exact absurd h hk
      · simpa [List.lookup, beq_false_of_ne hk] using ih h

/-- The head of a filtered list, defaulting to a member of the original
list, is a member of the original list. -/
lemma filter_head_getD_mem {l : List ℚ} {m : ℚ} (p : ℚ → Bool)
    (hmem : m ∈ l) : (((l.filter p).head?).getD m) ∈ l := by
  rcases hf : (l.filter p).head? with _ | x
  · simpa using hmem
  · simp only [Option.getD_some]
    exact List.mem_of_mem_filter (List.mem_of_mem_head? (by rw [hf]; rfl))

/-- Modelled from the spec: the activation-selection rule of spec section
4.2 step 2, stated in its words — scanning the sorted activations in
descending order, select the first activation `a` with `instant >= a`;
when none qualifies fall back to the earliest activation
(`min(activations)`). -/
def spec_select_activation (keys : List ℚ) (instant : ℚ) : Option ℚ :=
  match (sortQ keys).reverse.find? (fun t => decide (t ≤ instant)) with
  | some a => some a
  | none => (sortQ keys).head?

/-- C1, counterexample.  With activations `{10, 20}` and an instance
started at instant 15, the selection loop of `get_instance_weight` picks
activation 20 (the earliest activation at or after the instant), whereas
the claimed rule picks 10 (the most recent activation not after the
instant); end to end, the weight comes from the tier set activated at 20
(multiplier 3), not the one activated at 10 (multiplier 2). -/
theorem C1_counterexample :
    loop_select (sortQ [(10 : ℚ), 20]) 20 15 ≠
        spec_select_activation [(10 : ℚ), 20] 15 ∧
      get_instance_weight
        (some [((10 : ℚ), [("vcpus", [((100 : ℚ), (2 : ℚ))])]),
               (20, [("vcpus", [(100, 3)])])])
        "vcpus" 5 15 = .ok 3 := by
  constructor
  · decide
  · rfl

/-- C1, amended.  For every non-empty weight table, the activation that
the scan loop of `get_instance_weight` selects is the first activation
(in ascending order) whose timestamp is at or after the instance start
instant; when the start instant is after every activation, the latest
activation (`max`) is selected. -/
theorem C1_theorem (w : Weights) (max_timestamp instant : ℚ)
    (hm : (sortQ (w.map Prod.fst)).max? = some max_timestamp) :
    loop_select (sortQ (w.map Prod.fst)) max_timestamp instant =
      some ((((sortQ (w.map Prod.fst)).filter
        fun t => decide (instant ≤ t)).head?).getD max_timestamp) :=
  loop_select_eq instant (sortQ_sorted _) (max?_mem_q hm) (le_max?_q hm)

/-- C1, witness: with activations `{10, 20}` and instant 15 the loop
selects activation 20. -/
theorem C1_witness :
    loop_select (sortQ ([((10 : ℚ), ([] : TierSet)), (20, [])].map Prod.fst))
      20 15 = some 20 := by
  rw [C1_theorem [((10 : ℚ), ([] : TierSet)), (20, [])] 20 15 rfl]
  exact rfl

/-- C7.  When the threshold table of the selected tier set is non-empty
(its sorted key list has a maximum), the threshold scan of
`get_instance_weight` returns the multiplier of the smallest threshold at
or above the amount, and the multiplier of the maximum threshold when the
amount exceeds every threshold; in particular with vCPU tiers
`{2: 1.0, 8: 1.5}` and amount 4 the resolver returns 1.5. -/
theorem C7_theorem (metric_weights : List (ℚ × ℚ))
    (max_key metric_amount : ℚ)
    (hm : (sortQ (metric_weights.map Prod.fst)).max? = some max_key) :
    weight_from_tiers metric_weights metric_amount =
        .ok ((metric_weights.lookup
          ((((sortQ (metric_weights.map Prod.fst)).filter
            fun t => decide (metric_amount ≤ t)).head?).getD max_key)).getD 1) ∧
      get_instance_weight (some [(0, [("vcpus", [(2, 1), (8, 3/2)])])])
        "vcpus" 4 100 = .ok (3/2) := by
  constructor
  · have hsel := loop_select_eq metric_amount (sortQ_sorted _)
      (max?_mem_q hm) (le_max?_q hm)
    have hselmem :
        (((sortQ (metric_weights.map Prod.fst)).filter
          fun t => decide (metric_amount ≤ t)).head?).getD max_key ∈
            metric_weights.map Prod.fst :=
      (sortQ_perm _).mem_iff.mp
        (filter_head_getD_mem _ (max?_mem_q hm))
    rcases Option.isSome_iff_exists.mp
        (lookup_isSome_of_mem_keys hselmem) with ⟨v, hv⟩
    unfold weight_from_tiers
    simp only [hm, hsel, hv]
    rfl
  · rfl

/-- C7, witness: the tier table `{2: 1, 8: 3/2}` at amount 4 yields
3/2. -/
theorem C7_witness :
    weight_from_tiers [((2 : ℚ), (1 : ℚ)), (8, 3/2)] 4 = .ok (3/2) := by
  rw [(C7_theorem [((2 : ℚ), (1 : ℚ)), (8, 3/2)] 8 4 rfl).1]
  exact rfl

/-- C10.  When the threshold table is non-empty (its sorted key list has
a maximum `max_key`), the ascending scan always fires inside the loop —
its guard holds at `max_key` at the latest — so the fall-through branch
of `weight_from_tiers` that logs a warning and returns 1 is unreachable:
the loop result is always `some`. -/
theorem C10_theorem (metric_weights : List (ℚ × ℚ))
    (max_key metric_amount : ℚ)
    (hm : (sortQ (metric_weights.map Prod.fst)).max? = some max_key) :
    (loop_select (sortQ (metric_weights.map Prod.fst)) max_key
      metric_amount).isSome = true := by
  rw [loop_select_eq metric_amount (sortQ_sorted _) (max?_mem_q hm)
    (le_max?_q hm)]
  rfl

/-- C10, witness: with thresholds `{2, 8}` and amount 100 (above every
threshold) the loop still fires. -/
theorem C10_witness :
    (loop_select (sortQ ([((2 : ℚ), (1 : ℚ)), (8, 3/2)].map Prod.fst)) 8
      100).isSome = true :=
  C10_theorem [((2 : ℚ), (1 : ℚ)), (8, 3/2)] 8 100 rfl

/-- C4, counterexample.  With an *empty* (but present) weight table —
reachable when the weight-update endpoint returns an empty sequence —
`get_instance_weight` does not return 1.0: Python `max(sorted([]))`
raises `ValueError`, so the lookup fails the caller. -/
theorem C4_counterexample :
    get_instance_weight (some []) "vcpus" 4 100 =
      .error "ValueError: max arg is an empty sequence" := rfl

/-- C4, amended.  `get_instance_weight` returns 1.0 without raising when
the weight table is absent (`None`); but when the table is present and
empty it raises `ValueError` (from `max` of an empty sequence), when the
selected tier set lacks the requested metric it raises `KeyError`, and
when the threshold table of the metric is empty it raises `ValueError` — a
weight lookup can fail the caller. -/
theorem C4_theorem (metric_tag : String) (metric_amount started t : ℚ)
    (ts : TierSet) :
    get_instance_weight none metric_tag metric_amount started = .ok 1 ∧
    (get_instance_weight (some []) metric_tag metric_amount started).isOk
        = false ∧
    (ts.lookup metric_tag = none →
      (get_instance_weight (some [(t, ts)]) metric_tag metric_amount
        started).isOk = false) ∧
    (ts.lookup metric_tag = some [] →
      (get_instance_weight (some [(t, ts)]) metric_tag metric_amount
        started).isOk = false) := by
  have hmax : (sortQ ([(t, ts)].map Prod.fst)).max? = some t := rfl
  have hsel : loop_select (sortQ ([(t, ts)].map Prod.fst)) t started
      = some t := by
    simp [loop_select, sortQ, List.insertionSort, List.orderedInsert,
      List.find?_cons]
  have hlk : [(t, ts)].lookup t = some ts := by
    simp [List.lookup]
  refine ⟨rfl, rfl, ?_, ?_⟩
  · intro h
    unfold get_instance_weight
    simp only [hmax, hsel, hlk, h]
    rfl
  · intro h
    unfold get_instance_weight
    simp only [hmax, hsel, hlk, h]
    rfl

/-- C4, witness: a present single-activation table missing the `vcpus`
metric raises, and one whose `vcpus` threshold table is empty raises. -/
theorem C4_witness :
    (get_instance_weight
        (some [((5 : ℚ), [("memory_mb", [((100 : ℚ), (2 : ℚ))])])])
        "vcpus" 4 100).isOk = false ∧
    (get_instance_weight
        (some [((5 : ℚ), [("vcpus", ([] : List (ℚ × ℚ)))])])
        "vcpus" 4 100).isOk = false := by
  have h1 := C4_theorem "vcpus" 4 100 5 [("memory_mb", [(100, 2)])]
  have h2 := C4_theorem "vcpus" 4 100 5 [("vcpus", [])]
  exact ⟨h1.2.2.1 rfl, h2.2.2.2 rfl⟩

/-- Normal form of the `BETWEEN_DATETIMES` branch of
`compute_server_info`. -/
lemma hours_between {m : DummyMachine} {boot shutdown : ℚ}
    (hex : m.existence = .BETWEEN_DATETIMES boot shutdown)
    (rsd ss now : ℚ) :
    (compute_server_info m rsd ss now).hours =
      if now < boot then 0
      else if shutdown < now then
        (if boot < rsd then (shutdown - rsd) / 3600
          else (shutdown - boot) / 3600)
      else
        (if boot < rsd then (now - rsd) / 3600
          else (now - boot) / 3600) := by
  simp only [compute_server_info, hex]

/-- C5.  For a machine existing between `boot` and `shutdown`
(`boot <= shutdown`), `compute_server_info` reports 0 hours before boot,
`(shutdown - max(windowStart, boot)) / 1h` once the machine is down, and
`(now - max(windowStart, boot)) / 1h` while it is still running. -/
theorem C5_theorem (m : DummyMachine) (boot shutdown rsd ss now : ℚ)
    (hex : m.existence = .BETWEEN_DATETIMES boot shutdown)
    (hbs : boot ≤ shutdown) :
    (compute_server_info m rsd ss now).hours =
      if now < boot then 0
      else if shutdown < now then (shutdown - max rsd boot) / 3600
      else (now - max rsd boot) / 3600 := by
  rw [hours_between hex rsd ss now]
  rcases le_or_lt rsd boot with h | h
  · rw [max_eq_right h, if_neg (not_lt.mpr h), if_neg (not_lt.mpr h)]
  · rw [max_eq_left h.le, if_pos h, if_pos h]

/-- C5, witness: booted at 0, down at 7200, queried at 3600 with window
start 0 — one hour of usage. -/
theorem C5_witness :
    (compute_server_info ⟨4, 8, .BETWEEN_DATETIMES 0 7200, [], "i"⟩
      0 0 3600).hours = 1 := by
  rw [C5_theorem _ 0 7200 0 0 3600 rfl (by norm_num)]
  norm_num

/-- C2, counterexample.  A machine that ran from 0 to 3600, queried with
window start 7000 at `now = 7200`: the `BETWEEN_DATETIMES` branch reports
`(shutdown - windowStart) / 1h` with no clamping, a negative value —
refuting the claim that the hours field is never negative for `Between`
machines with `boot <= shutdown`. -/
theorem C2_counterexample :
    (compute_server_info ⟨4, 8, .BETWEEN_DATETIMES 0 3600, [], "i"⟩
      7000 0 7200).hours < 0 := by
  norm_num [compute_server_info]

/-- C2, amended.  The hours field is non-negative for every
`SINCE_DATETIME` machine (that branch clamps at 0); for a
`BETWEEN_DATETIMES` machine with `boot <= shutdown` it is non-negative
provided the query window start does not exceed the shutdown instant nor
`now` (the branch does not clamp, so a window start past the end of the machine life can go negative). -/
theorem C2_theorem (m : DummyMachine) (boot shutdown rsd ss now : ℚ)
    (h : m.existence = .SINCE_DATETIME boot ∨
      (m.existence = .BETWEEN_DATETIMES boot shutdown ∧ boot ≤ shutdown ∧
        rsd ≤ shutdown ∧ rsd ≤ now)) :
    0 ≤ (compute_server_info m rsd ss now).hours := by
  rcases h with hex | ⟨hex, hbs, hrs, hrn⟩
  · simp only [compute_server_info, hex]
    split_ifs <;> linarith
  · rw [hours_between hex rsd ss now]
    split_ifs <;> linarith

/-- C2, witness: a `Between` machine queried inside its life and a
`SinceInstant` machine queried before boot both report non-negative
hours. -/
theorem C2_witness :
    0 ≤ (compute_server_info ⟨4, 8, .BETWEEN_DATETIMES 0 7200, [], "i"⟩
        0 0 3600).hours ∧
    0 ≤ (compute_server_info ⟨4, 8, .SINCE_DATETIME 9000, [], "i"⟩
        0 0 3600).hours :=
  ⟨C2_theorem _ 0 7200 0 0 3600
      (Or.inr ⟨rfl, by norm_num, by norm_num, by norm_num⟩),
   C2_theorem _ 9000 0 0 0 3600 (Or.inl rfl)⟩

/-- C6, counterexample.  With `boot = 0`, `shutdown = 3600` and window
start 3600 (past boot), the hours value at `now = boot = 0` is
`(now - windowStart) / 1h = -1`, not 0 — refuting the claim that the
hours are zero for all `now <= boot` at every window start. -/
theorem C6_counterexample :
    (compute_server_info ⟨4, 8, .BETWEEN_DATETIMES 0 3600, [], "i"⟩
      3600 0 0).hours ≠ 0 := by
  norm_num [compute_server_info]

/-- C6, amended.  For a `BETWEEN_DATETIMES` machine with
`boot <= shutdown` and a window start at or before `boot`, the hours
value as a function of `now` is monotonically non-decreasing, constant
from `shutdown` on, and zero for all `now <= boot`.  (When the window
start exceeds `boot` the function dips negative at `now = boot`, so the
restriction is necessary.) -/
theorem C6_theorem (m : DummyMachine) (boot shutdown rsd ss : ℚ)
    (hex : m.existence = .BETWEEN_DATETIMES boot shutdown)
    (hbs : boot ≤ shutdown) (hrb : rsd ≤ boot) :
    (∀ n₁ n₂ : ℚ, n₁ ≤ n₂ →
      (compute_server_info m rsd ss n₁).hours ≤
        (compute_server_info m rsd ss n₂).hours) ∧
    (∀ n : ℚ, shutdown ≤ n →
      (compute_server_info m rsd ss n).hours =
        (compute_server_info m rsd ss shutdown).hours) ∧
    (∀ n : ℚ, n ≤ boot → (compute_server_info m rsd ss n).hours = 0) := by
  have hb : ∀ n : ℚ, (compute_server_info m rsd ss n).hours =
      if n < boot then 0
      else if shutdown < n then (shutdown - boot) / 3600
      else (n - boot) / 3600 := by
    intro n
    rw [hours_between hex rsd ss n, if_neg (not_lt.mpr hrb),
      if_neg (not_lt.mpr hrb)]
  refine ⟨?_, ?_, ?_⟩
  · intro n₁ n₂ h12
    rw [hb n₁, hb n₂]
    split_ifs <;> linarith
  · intro n hn
    rw [hb n, hb shutdown]
    split_ifs <;> linarith
  · intro n hn
    rw [hb n]
    split_ifs <;> linarith

/-- C6, witness: booted at 0 and down at 3600 with window start 0 — the
hours value grows from 100 s to 200 s, is the same at 5000 s as at
shutdown, and is zero before boot. -/
theorem C6_witness :
    ((compute_server_info ⟨4, 8, .BETWEEN_DATETIMES 0 3600, [], "i"⟩
        0 0 100).hours ≤
      (compute_server_info ⟨4, 8, .BETWEEN_DATETIMES 0 3600, [], "i"⟩
        0 0 200).hours) ∧
    ((compute_server_info ⟨4, 8, .BETWEEN_DATETIMES 0 3600, [], "i"⟩
        0 0 5000).hours =
      (compute_server_info ⟨4, 8, .BETWEEN_DATETIMES 0 3600, [], "i"⟩
        0 0 3600).hours) ∧
    (compute_server_info ⟨4, 8, .BETWEEN_DATETIMES 0 3600, [], "i"⟩
        0 0 (-5)).hours = 0 := by
  have h := C6_theorem ⟨4, 8, .BETWEEN_DATETIMES 0 3600, [], "i"⟩ 0 3600 0 0
    rfl (by norm_num) (by norm_num)
  exact ⟨h.1 100 200 (by norm_num), h.2.1 5000 (by norm_num),
    h.2.2 (-5) (by norm_num)⟩

/-- C9.  `ram_mb` is exactly `ram * 1024` (GiB to MiB), and every usage
record produced by `compute_server_info` carries `memory_mb = 1024 * ram`
— so the memory metric accumulated downstream is hours times MiB. -/
theorem C9_theorem (m : DummyMachine) (rsd ss now : ℚ) :
    m.ram_mb = m.ram * 1024 ∧
    (compute_server_info m rsd ss now).memory_mb = 1024 * m.ram := by
  refine ⟨rfl, ?_⟩
  rcases hex : m.existence with _ | _ | boot | ⟨boot, shutdown⟩ <;>
    simp [compute_server_info, hex, DummyMachine.ram_mb, mul_comm]

/-- If processing one listed project raises (for every accumulator), the
whole `collect_usages` loop raises: errors are not absorbed anywhere
downstream of the guarded fetch. -/
lemma collect_go_error (st : ExporterState) (env : CloudEnv)
    (p : OpenstackProject) (e : String)
    (hstep : ∀ acc, collect_step st env acc p = .error e) :
    ∀ (l : List OpenstackProject)
      (acc : List (OpenstackProject × List (String × ℚ))), p ∈ l →
      (collect_usages_go st env l acc).isOk = false := by
  intro l
  induction l with
  | nil => intro acc h; cases h
  | cons q rest ih =>
    intro acc hmem
    rcases List.mem_cons.mp hmem with h | h
    · subst h
      simp [collect_usages_go, hstep acc, Except.isOk, Except.toBool]
    · cases hq : collect_step st env acc q with
      | error e' => simp [collect_usages_go, hq, Except.isOk, Except.toBool]
      | ok acc' =>
        simp only [collect_usages_go, hq]
        exact ih acc' h

/-- C3, counterexample.  One non-grouping project whose tenant-usage
response holds a well-formed record and one record lacking the `hours`
key: `collect_usages` does not skip the bad record and return the
remaining sum — the per-instance `KeyError` is raised out of the call. -/
theorem C3_counterexample :
    collect_usages
      ⟨[⟨"p", "proj", "dom", "did", false⟩], none, none⟩
      ⟨fun _ => .usage
          [⟨[("hours", 2), ("vcpus", 4), ("memory_mb", 8192)], 0, "a"⟩,
           ⟨[("vcpus", 2), ("memory_mb", 4096)], 0, "b"⟩],
        fun _ => []⟩ = .error "KeyError: hours" := rfl

/-- C3, amended.  The guarded `try` of `collect_usages` covers only the
tenant-usage fetch; a missing `hours` or metric-amount key inside an
instance record is *not* caught per-instance: whenever the per-instance
accumulation for a listed non-grouping project raises a `KeyError`, the
whole `collect_usages` call raises and returns no result mapping. -/
theorem C3_theorem (st : ExporterState) (env : CloudEnv)
    (p : OpenstackProject) (rs : List InstanceRecord) (e : String)
    (hmem : p ∈ st.projects) (hns : p.is_simple_vm_project = false)
    (hresp : env.tenant_usage p = .usage rs)
    (hacc : accumulate st.weights (instance_metric_of "total_vcpus_usage")
      rs 0 = .error e) :
    (collect_usages st env).isOk = false := by
  have hstep : ∀ acc, collect_step st env acc p = .error e := by
    intro acc
    unfold collect_step
    rw [hresp]
    simp only [hns, Bool.false_eq_true, if_false, metric_totals,
      project_metrics, hacc]
  unfold collect_usages
  exact collect_go_error st env p e hstep st.projects [] hmem

/-- C3, witness: the concrete malformed-payload scenario raises. -/
theorem C3_witness :
    (collect_usages
      ⟨[⟨"q", "proj2", "dom", "did", false⟩], none, none⟩
      ⟨fun _ => .usage
          [⟨[("hours", 5), ("vcpus", 1), ("memory_mb", 1024)], 0, "c"⟩,
           ⟨[("memory_mb", 2048)], 0, "d"⟩],
        fun _ => []⟩).isOk = false :=
  C3_theorem _ _ ⟨"q", "proj2", "dom", "did", false⟩
    [⟨[("hours", 5), ("vcpus", 1), ("memory_mb", 1024)], 0, "c"⟩,
     ⟨[("memory_mb", 2048)], 0, "d"⟩]
    "KeyError: hours" (List.mem_singleton.mpr rfl) rfl rfl rfl

/-- The pure value of `instance_id_to_project_dict` when every inventory
entry carries the tag: each server id mapped to its tag value. -/
def pure_tag_dict (servers : List ServerDetail) (tag : String) :
    List (String × String) :=
  servers.map fun s => (s.id, (s.metadata.lookup tag).getD "")

/-- A numeric field of a usage record (0 when absent; only used where
presence is separately guaranteed). -/
def fieldD (r : InstanceRecord) (k : String) : ℚ :=
  (r.fields.lookup k).getD 0

/-- The weight the resolver yields for the metric value of a record (1 when
the resolver raises; only used where success is separately
guaranteed). -/
def weightD (w : Option Weights) (im : String) (r : InstanceRecord) : ℚ :=
  ((get_instance_weight w im (fieldD r im) r.started_at).toOption).getD 1

/-- The contribution of one record to a metric total:
`hours * amount * weight`. -/
def contributionD (w : Option Weights) (im : String) (r : InstanceRecord) :
    ℚ :=
  fieldD r "hours" * fieldD r im * weightD w im r

/-- Specification-side total for one synthetic tag value: the sum of
`hours * amount * weight` over exactly the records whose inventory tag
equals the value and whose hours are positive. -/
def spec_tag_total (w : Option Weights) (d : List (String × String))
    (n : String) (im : String) (rs : List InstanceRecord) : ℚ :=
  ((rs.filter fun r =>
      decide (d.lookup r.instance_id = some n) &&
        decide (0 < fieldD r "hours")).map (contributionD w im)).sum

lemma isOk_iff_exists {ε α : Type} {e : Except ε α} :
    e.isOk = true ↔ ∃ a, e = .ok a := by
  cases e <;> simp [Except.isOk, Except.toBool]

lemma build_tag_dict_ok {servers : List ServerDetail} {tag : String}
    (hmeta : ∀ s ∈ servers, (s.metadata.lookup tag).isSome) :
    ∀ acc, build_tag_dict servers tag acc =
      .ok (acc ++ pure_tag_dict servers tag) := by
  induction servers with
  | nil => intro acc; simp [build_tag_dict, pure_tag_dict]
  | cons s rest ih =>
    intro acc
    rcases Option.isSome_iff_exists.mp
      (hmeta s (List.mem_cons_self s rest)) with ⟨v, hv⟩
    have := ih (fun x hx => hmeta x (List.mem_cons_of_mem _ hx))
      (acc ++ [(s.id, v)])
    simp [build_tag_dict, pure_tag_dict, hv, this]

lemma accumulate_tagged_ok (w : Option Weights) (im : String)
    (d : List (String × String)) (n : String) :
    ∀ (rs : List InstanceRecord),
      (∀ r ∈ rs, (d.lookup r.instance_id).isSome) →
      (∀ r ∈ rs, (r.fields.lookup "hours").isSome) →
      (∀ r ∈ rs, (r.fields.lookup im).isSome) →
      (∀ r ∈ rs, (get_instance_weight w im (fieldD r im)
        r.started_at).isOk = true) →
      ∀ acc, accumulate_tagged w im d n rs acc =
        .ok (acc + spec_tag_total w d n im rs) := by
  intro rs
  induction rs with
  | nil =>
    intro _ _ _ _ acc
    simp [accumulate_tagged, spec_tag_total]
  | cons r rest ih =>
    intro hid hh ha hw acc
    have hmr : r ∈ r :: rest := List.mem_cons_self r rest
    obtain ⟨t, ht⟩ := Option.isSome_iff_exists.mp (hid r hmr)
    obtain ⟨h0, hh0⟩ := Option.isSome_iff_exists.mp (hh r hmr)
    have ihr := ih (fun x hx => hid x (List.mem_cons_of_mem _ hx))
      (fun x hx => hh x (List.mem_cons_of_mem _ hx))
      (fun x hx => ha x (List.mem_cons_of_mem _ hx))
      (fun x hx => hw x (List.mem_cons_of_mem _ hx))
    by_cases htn : t = n
    · by_cases hpos : 0 < h0
      · obtain ⟨a, ha'⟩ := Option.isSome_iff_exists.mp (ha r hmr)
        obtain ⟨wt, hwt⟩ := isOk_iff_exists.mp (hw r hmr)
        have hfa : fieldD r im = a := by simp [fieldD, ha']
        rw [hfa] at hwt
        simp only [accumulate_tagged, ht, if_pos htn, hh0, if_pos hpos,
          ha', hwt]
        rw [ihr (acc + h0 * a * wt)]
        congr 1
        have hguard : (decide (d.lookup r.instance_id = some n) &&
            decide (0 < fieldD r "hours")) = true := by
          simp [ht, htn, fieldD, hh0, hpos]
        simp only [spec_tag_total, List.filter_cons, hguard, if_true,
          List.map_cons, List.sum_cons]
        have hc : contributionD w im r = h0 * a * wt := by
          simp [contributionD, weightD, fieldD, hh0, ha', hwt,
            Except.toOption]
        rw [hc]
        ring
      · simp only [accumulate_tagged, ht, if_pos htn, hh0, if_neg hpos]
        rw [ihr acc]
        congr 1
        have hguard : (decide (d.lookup r.instance_id = some n) &&
            decide (0 < fieldD r "hours")) = false := by
          simp [fieldD, hh0, hpos]
        simp only [spec_tag_total, List.filter_cons, hguard,
          Bool.false_eq_true, if_false]
    · simp only [accumulate_tagged, ht, if_neg htn]
      rw [ihr acc]
      congr 1
      have hguard : (decide (d.lookup r.instance_id = some n) &&
          decide (0 < fieldD r "hours")) = false := by
        simp [ht, htn]
      simp only [spec_tag_total, List.filter_cons, hguard,
        Bool.false_eq_true, if_false]

lemma svm_totals_ok (w : Option Weights) (d : List (String × String))
    (n : String) (rs : List InstanceRecord)
    (hid : ∀ r ∈ rs, (d.lookup r.instance_id).isSome)
    (hh : ∀ r ∈ rs, (r.fields.lookup "hours").isSome) :
    ∀ (metrics : List String),
      (∀ metric ∈ metrics, ∀ r ∈ rs,
        (r.fields.lookup (instance_metric_of metric)).isSome) →
      (∀ metric ∈ metrics, ∀ r ∈ rs,
        (get_instance_weight w (instance_metric_of metric)
          (fieldD r (instance_metric_of metric)) r.started_at).isOk
            = true) →
      svm_totals w d n rs metrics = .ok (metrics.map fun metric =>
        (metric,
          spec_tag_total w d n (instance_metric_of metric) rs)) := by
  intro metrics
  induction metrics with
  | nil => intro _ _; rfl
  | cons metric rest ih =>
    intro hf hw
    have h1 := accumulate_tagged_ok w (instance_metric_of metric) d n rs
      hid hh (hf metric (List.mem_cons_self _ _))
      (hw metric (List.mem_cons_self _ _)) 0
    rw [zero_add] at h1
    have h2 := ih (fun m hm => hf m (List.mem_cons_of_mem _ hm))
      (fun m hm => hw m (List.mem_cons_of_mem _ hm))
    simp only [svm_totals, h1, h2, List.map_cons]

lemma svm_loop_ok (w : Option Weights) (d : List (String × String))
    (rs : List InstanceRecord) (p : OpenstackProject)
    (hid : ∀ r ∈ rs, (d.lookup r.instance_id).isSome)
    (hh : ∀ r ∈ rs, (r.fields.lookup "hours").isSome)
    (hf : ∀ metric ∈ project_metrics, ∀ r ∈ rs,
      (r.fields.lookup (instance_metric_of metric)).isSome)
    (hw : ∀ metric ∈ project_metrics, ∀ r ∈ rs,
      (get_instance_weight w (instance_metric_of metric)
        (fieldD r (instance_metric_of metric)) r.started_at).isOk
          = true) :
    ∀ (names : List String)
      (acc : List (OpenstackProject × List (String × ℚ))),
      svm_loop w d rs p names acc = .ok (acc ++ names.map fun n =>
        (svm_project p n, project_metrics.map fun metric =>
          (metric,
            spec_tag_total w d n (instance_metric_of metric) rs))) := by
  intro names
  induction names with
  | nil => intro acc; simp [svm_loop]
  | cons n rest ih =>
    intro acc
    simp only [svm_loop, svm_totals_ok w d n rs hid hh project_metrics
      hf hw, ih, List.map_cons]
    simp

/-- C8.  For a grouping (simple-VM) project with a configured tag whose
tenant-usage and inventory responses are well-formed (every inventory
entry carries the tag, ids are unique, every usage record has an
inventory entry, its `hours` and metric fields, and a succeeding weight
lookup), `collect_usages` returns exactly one synthetic project per
distinct tag value — same id as the parent, name equal to the tag value
— whose metric totals sum `hours * amount * weight` over exactly the records of that
tag with positive hours; no other entry (in particular no
parent entry with the combined total) is emitted. -/
theorem C8_theorem (st : ExporterState) (env : CloudEnv)
    (p : OpenstackProject) (tag : String) (rs : List InstanceRecord)
    (hproj : st.projects = [p]) (hsvm : p.is_simple_vm_project = true)
    (htag : st.simple_vm_tag = some tag)
    (hresp : env.tenant_usage p = .usage rs)
    (hnodup : ((env.server_details p).map ServerDetail.id).Nodup)
    (hmeta : ∀ s ∈ env.server_details p, (s.metadata.lookup tag).isSome)
    (hid : ∀ r ∈ rs, ((pure_tag_dict (env.server_details p) tag).lookup
      r.instance_id).isSome)
    (hh : ∀ r ∈ rs, (r.fields.lookup "hours").isSome)
    (hf : ∀ metric ∈ project_metrics, ∀ r ∈ rs,
      (r.fields.lookup (instance_metric_of metric)).isSome)
    (hw : ∀ metric ∈ project_metrics, ∀ r ∈ rs,
      (get_instance_weight st.weights (instance_metric_of metric)
        (fieldD r (instance_metric_of metric)) r.started_at).isOk
          = true) :
    collect_usages st env = .ok
      ((((pure_tag_dict (env.server_details p) tag).map Prod.snd).dedup).map
        fun n => (svm_project p n, project_metrics.map fun metric =>
          (metric, spec_tag_total st.weights
            (pure_tag_dict (env.server_details p) tag) n
            (instance_metric_of metric) rs))) := by
  have hstep : collect_step st env [] p = .ok
      ((((pure_tag_dict (env.server_details p) tag).map Prod.snd).dedup).map
        fun n => (svm_project p n, project_metrics.map fun metric =>
          (metric, spec_tag_total st.weights
            (pure_tag_dict (env.server_details p) tag) n
            (instance_metric_of metric) rs))) := by
    unfold collect_step
    rw [hresp]
    simp only [hsvm, if_true, htag, build_tag_dict_ok hmeta [],
      List.nil_append,
      svm_loop_ok st.weights (pure_tag_dict (env.server_details p) tag)
        rs p hid hh hf hw _ []]
  unfold collect_usages
  rw [hproj]
  simp only [collect_usages_go, hstep]

/-- C8, witness: a grouping project with two instances tagged `sub-a`
and `sub-b` emits exactly the two synthetic per-tag results. -/
theorem C8_witness :
    collect_usages
      ⟨[⟨"p", "proj", "dom", "did", true⟩], none, some "project_name"⟩
      ⟨fun _ => .usage
          [⟨[("hours", 2), ("vcpus", 4), ("memory_mb", 8192)], 0, "a"⟩,
           ⟨[("hours", 3), ("vcpus", 2), ("memory_mb", 4096)], 0, "b"⟩],
        fun _ =>
          [⟨"a", [("project_name", "sub-a")]⟩,
           ⟨"b", [("project_name", "sub-b")]⟩]⟩ = .ok
      ((((pure_tag_dict
            [⟨"a", [("project_name", "sub-a")]⟩,
             ⟨"b", [("project_name", "sub-b")]⟩]
            "project_name").map Prod.snd).dedup).map
        fun n => (svm_project ⟨"p", "proj", "dom", "did", true⟩ n,
          project_metrics.map fun metric =>
            (metric, spec_tag_total none
              (pure_tag_dict
                [⟨"a", [("project_name", "sub-a")]⟩,
                 ⟨"b", [("project_name", "sub-b")]⟩]
                "project_name") n (instance_metric_of metric)
              [⟨[("hours", 2), ("vcpus", 4), ("memory_mb", 8192)], 0, "a"⟩,
               ⟨[("hours", 3), ("vcpus", 2), ("memory_mb", 4096)], 0,
                "b"⟩]))) :=
  C8_theorem
    ⟨[⟨"p", "proj", "dom", "did", true⟩], none, some "project_name"⟩
    ⟨fun _ => .usage
        [⟨[("hours", 2), ("vcpus", 4), ("memory_mb", 8192)], 0, "a"⟩,
         ⟨[("hours", 3), ("vcpus", 2), ("memory_mb", 4096)], 0, "b"⟩],
      fun _ =>
        [⟨"a", [("project_name", "sub-a")]⟩,
         ⟨"b", [("project_name", "sub-b")]⟩]⟩
    ⟨"p", "proj", "dom", "did", true⟩ "project_name"
    [⟨[("hours", 2), ("vcpus", 4), ("memory_mb", 8192)], 0, "a"⟩,
     ⟨[("hours", 3), ("vcpus", 2), ("memory_mb", 4096)], 0, "b"⟩]
    rfl rfl rfl rfl (by decide) (by decide) (by decide) (by decide)
    (by decide) (by decide)
